import Mathlib

/-
Verification of the consensus engine of the Mini_Blockchain repository
(src/consensus/engine.py and src/consensus/state.py) against its
natural-language specification.

Shallow embedding conventions:
- Python `Dict[str, T]` (insertion-ordered, unique keys) is a `List (String × T)`
  together with the `dict_get` / `dict_set` / `dict_del` operations below, which
  implement the Python dict semantics (lookup first binding, in-place overwrite,
  append new keys at the end).
- Python ints are `Int` (token balances, assigned orders) or `Nat` where the
  source only ever produces nonnegative values (turn numbers, indices, seeds);
  32-bit wraparound is written explicitly with `&&& 0xFFFFFFFF`.
- `random.Random(seed).randrange(n)` (CPython's MT19937) is modelled
  bit-exactly below; the 624-word generator state array is packed into a single
  natural number, 32 bits per word (`mtw_get`/`mtw_set`).  The unbounded
  rejection-sampling loop of `Random._randbelow` gets explicit fuel and returns
  `Option Nat`; `none` stands for non-termination within the fuel, which is the
  only behaviour of the Python loop the model cannot exhibit.
- The engine obtains signature checking from an injected `CryptoProvider`
  (`self.crypto = get_provider()`); operations therefore take the provider's
  `verify` as a function parameter `vrfy : String → String → String → Bool`
  (public key, payload, signature).
- Python's process-salted `hash(str)` (used by `Node.ip_as_int`'s fallback and
  by `extract_seed_value`'s fallback) is an environment-dependent function and
  is passed as a parameter `h : String → Nat`, truncated with `&&& 0xFFFFFFFF`
  exactly where the source truncates it.
- `float` results (the agreement fraction; `math.ceil(2*n/3)`) are modelled in
  exact arithmetic: the fraction as `ℚ`, the ceiling as the exact integer
  ceiling `(2*n+2)/3`, which agrees with the float computation for every
  realistic operand size.
-/

namespace MiniBC

/-! ## CPython MT19937 (`random.Random(seed)`, `randrange`)

Model of CPython `Modules/_randommodule.c`.  The 624-entry `uint32_t state[]`
array is packed into one `Nat`, word `i` occupying bits `[32*i, 32*i+32)`. -/

/-- Force a `Nat` to literal form before continuing; keeps kernel reduction of
the sequential generator loops shallow. Semantically the identity applied. -/
def force_nat (n : Nat) (f : Nat → α) : α :=
  match n with
  | 0 => f 0
  | m+1 => f (m+1)

/-- Word `i` of the packed state array. -/
def mtw_get (a i : Nat) : Nat := (a >>> (32*i)) &&& 0xFFFFFFFF

/-- Overwrite word `i` of the packed state array with `v` (`v < 2^32`). -/
def mtw_set (a i v : Nat) : Nat := a - ((mtw_get a i) <<< (32*i)) + (v <<< (32*i))

/-- Loop body of `init_genrand`: `mt[i] = 1812433253 * (mt[i-1] ^ (mt[i-1] >> 30)) + i`. -/
def init_genrand_go : Nat → Nat → Nat → Nat
  | 0, _, a => a
  | fuel+1, i, a =>
    let p := mtw_get a (i-1)
    let v := (1812433253 * (p ^^^ (p >>> 30)) + i) &&& 0xFFFFFFFF
    force_nat (mtw_set a i v) (init_genrand_go fuel (i+1))

/-- `init_genrand(s)`: `mt[0] = s`, then the recurrence for `mti = 1..623`. -/
def init_genrand (s : Nat) : Nat := init_genrand_go 623 1 (s &&& 0xFFFFFFFF)

/-- First mixing loop of `init_by_array` (runs `max(624, len(key))` times);
returns the state array together with the running index `i`. -/
def init_by_array_go1 : Nat → Nat → Nat → List Nat → Nat → Nat × Nat
  | 0, i, _, _, a => (a, i)
  | k+1, i, j, key, a =>
    let p := mtw_get a (i-1)
    let v := (((mtw_get a i) ^^^ (((p ^^^ (p >>> 30)) * 1664525) &&& 0xFFFFFFFF))
               + key.getD j 0 + j) &&& 0xFFFFFFFF
    let a1 := mtw_set a i v
    let i1 := i + 1
    let st := if i1 ≥ 624 then (mtw_set a1 0 (mtw_get a1 623), 1) else (a1, i1)
    let j1 := j + 1
    let j2 := if j1 ≥ key.length then 0 else j1
    force_nat st.1 (fun b => init_by_array_go1 k st.2 j2 key b)

/-- Second mixing loop of `init_by_array` (runs 623 times). -/
def init_by_array_go2 : Nat → Nat → Nat → Nat
  | 0, _, a => a
  | k+1, i, a =>
    let p := mtw_get a (i-1)
    let x := (mtw_get a i) ^^^ (((p ^^^ (p >>> 30)) * 1566083941) &&& 0xFFFFFFFF)
    let v := (x + (0x100000000 - i)) &&& 0xFFFFFFFF
    let a1 := mtw_set a i v
    let i1 := i + 1
    let st := if i1 ≥ 624 then (mtw_set a1 0 (mtw_get a1 623), 1) else (a1, i1)
    force_nat st.1 (fun b => init_by_array_go2 k st.2 b)

/-- `init_by_array(key)` of MT19937 as used by CPython's `random_seed`. -/
def init_by_array (key : List Nat) : Nat :=
  let a0 := init_genrand 19650218
  let k := max 624 key.length
  let r1 := init_by_array_go1 k 1 0 key a0
  let a2 := init_by_array_go2 623 r1.2 r1.1
  mtw_set a2 0 0x80000000

/-- Split a nonnegative integer into little-endian 32-bit words (`random_seed`). -/
def seed_key_go : Nat → Nat → List Nat
  | 0, _ => []
  | fuel+1, n => if n = 0 then [] else (n &&& 0xFFFFFFFF) :: seed_key_go fuel (n >>> 32)

/-- The key array CPython derives from an integer seed (at least one word). -/
def random_seed_key (n : Nat) : List Nat :=
  if n = 0 then [0] else seed_key_go n n

/-- Generator state: packed word array plus the read index. -/
structure MTState where
  mt : Nat
  index : Nat
deriving DecidableEq

/-- One step of the MT19937 twist, updating word `kk` in place. -/
def twist_go : Nat → Nat → Nat → Nat
  | 0, _, a => a
  | fuel+1, kk, a =>
    let y := ((mtw_get a kk) &&& 0x80000000) ||| ((mtw_get a ((kk+1) % 624)) &&& 0x7FFFFFFF)
    let src := if kk < 227 then mtw_get a (kk+397) else mtw_get a (kk+397-624)
    let v := src ^^^ (y >>> 1) ^^^ (if y &&& 1 = 1 then 0x9908B0DF else 0)
    force_nat (mtw_set a kk v) (twist_go fuel (kk+1))

/-- Regenerate all 624 words (the block update inside `genrand_uint32`). -/
def twist (a : Nat) : Nat := twist_go 624 0 a

/-- `genrand_uint32`: twist if the block is exhausted, then read and temper one word. -/
def genrand_uint32 (s : MTState) : Nat × MTState :=
  let st := if s.index ≥ 624 then (twist s.mt, 0) else (s.mt, s.index)
  let y0 := mtw_get st.1 st.2
  let y1 := y0 ^^^ (y0 >>> 11)
  let y2 := y1 ^^^ ((y1 <<< 7) &&& 0x9D2C5680)
  let y3 := y2 ^^^ ((y2 <<< 15) &&& 0xEFC60000)
  let y4 := y3 ^^^ (y3 >>> 18)
  (y4, ⟨st.1, st.2 + 1⟩)

/-- `random.Random(seed)` for a nonnegative integer seed. -/
def mt_init (seed : Nat) : MTState := ⟨init_by_array (random_seed_key seed), 624⟩

/-- Multi-word path of `getrandbits(k)` for `k > 32` (little-endian words,
the last word truncated to the remaining bits). -/
def getrandbits_words : Nat → Nat → Nat → MTState → Nat × MTState
  | 0, _, _, s => (0, s)
  | w+1, k, i, s =>
    let r := genrand_uint32 s
    let r1 := if k < 32 then r.1 >>> (32 - k) else r.1
    let rest := getrandbits_words w (k - 32) (i+1) r.2
    ((r1 <<< (32*i)) ||| rest.1, rest.2)

/-- `Random.getrandbits(k)`: one tempered word shifted down for `k ≤ 32`. -/
def getrandbits (k : Nat) (s : MTState) : Nat × MTState :=
  if k ≤ 32 then
    let r := genrand_uint32 s
    (r.1 >>> (32 - k), r.2)
  else getrandbits_words ((k-1)/32 + 1) k 0 s

/-- Fuelled `int.bit_length` (number of binary digits). -/
def bit_length_go : Nat → Nat → Nat
  | 0, _ => 0
  | fuel+1, n => if n = 0 then 0 else bit_length_go fuel (n >>> 1) + 1

/-- `n.bit_length()` as used by `Random._randbelow`. -/
def bit_length (n : Nat) : Nat := bit_length_go n n

/-- Rejection loop of `Random._randbelow_with_getrandbits`: draw `k` bits until
the draw is `< n`.  Explicit fuel; `none` models staying in the loop. -/
def randbelow_go : Nat → Nat → Nat → MTState → Option Nat
  | 0, _, _, _ => none
  | fuel+1, k, n, s =>
    let r := getrandbits k s
    if r.1 < n then some r.1 else randbelow_go fuel k n r.2

/-- `random.Random(seed).randrange(n)`.  `randrange` raises `ValueError` for
`n ≤ 0`, modelled as `none` (the engine never calls it with `n = 0`). -/
def randrange_fuel (fuel seed n : Nat) : Option Nat :=
  if n = 0 then none
  else randbelow_go fuel (bit_length n) n (mt_init seed)

/-! ## Python dict operations

`Dict[str, T]` as an insertion-ordered association list with unique keys.
All states built by the operations below keep keys unique. -/

/-- `d[k]` lookup (first binding). -/
def dict_get : List (String × α) → String → Option α
  | [], _ => none
  | (k', v) :: rest, k => if k' = k then some v else dict_get rest k

/-- `d[k] = v`: overwrite in place, or append a new binding at the end. -/
def dict_set : List (String × α) → String → α → List (String × α)
  | [], k, v => [(k, v)]
  | (k', v') :: rest, k, v =>
    if k' = k then (k, v) :: rest else (k', v') :: dict_set rest k v

/-- `del d[k]` (removes the binding; on unique-key lists this is Python's `del`). -/
def dict_del (l : List (String × α)) (k : String) : List (String × α) :=
  l.filter (fun p => !(p.1 == k))

/-- `d.values()` in insertion order. -/
def dict_values (l : List (String × α)) : List α := l.map (fun p => p.2)

/-! ## IP parsing (`Node.ip_as_int`) and base64 (`extract_seed_value`) -/

/-- Split a character list at every dot (the separator structure of a dotted quad). -/
def split_dots : List Char → List (List Char)
  | [] => [[]]
  | c :: rest =>
    if c = '.' then [] :: split_dots rest
    else
      match split_dots rest with
      | g :: gs => (c :: g) :: gs
      | [] => [[c]]

/-- Decimal digit value. -/
def digit_val (c : Char) : Option Nat :=
  if '0' ≤ c ∧ c ≤ '9' then some (c.toNat - 48) else none

/-- Parse a nonempty run of decimal digits. -/
def parse_dec_go : List Char → Nat → Option Nat
  | [], acc => some acc
  | c :: rest, acc =>
    match digit_val c with
    | some d => parse_dec_go rest (acc * 10 + d)
    | none => none

/-- Parse one dotted-quad component. -/
def parse_dec : List Char → Option Nat
  | [] => none
  | cs => parse_dec_go cs 0

/-- Well-formed dotted-quad IPv4 address as a 32-bit big-endian integer, the
success case of `struct.unpack("!I", socket.inet_aton(ip))[0]`.  (C
`inet_aton` additionally accepts short and octal/hex forms; none of the
verified properties depend on which well-formed spellings parse, only on the
success/fallback split for plainly malformed strings.) -/
def parse_ipv4 (s : String) : Option Nat :=
  match (split_dots s.data).mapM parse_dec with
  | some [a, b, c, d] =>
    if a ≤ 255 ∧ b ≤ 255 ∧ c ≤ 255 ∧ d ≤ 255 then
      some (((a * 256 + b) * 256 + c) * 256 + d)
    else none
  | _ => none

/-- `Node.ip_as_int` (state.py:22): parse the IP; on `socket.error` fall back to
`hash(self.ip) & 0xFFFFFFFF`, with `hash` the process-salted string hash `h`. -/
def ip_as_int (h : String → Nat) (ip : String) : Nat :=
  match parse_ipv4 ip with
  | some v => v
  | none => h ip &&& 0xFFFFFFFF

/-- Base64 sextet value of a character. -/
def b64_char_val (c : Char) : Option Nat :=
  if 'A' ≤ c ∧ c ≤ 'Z' then some (c.toNat - 65)
  else if 'a' ≤ c ∧ c ≤ 'z' then some (c.toNat - 71)
  else if '0' ≤ c ∧ c ≤ '9' then some (c.toNat + 4)
  else if c = '+' then some 62
  else if c = '/' then some 63
  else none

/-- Bytes of one base64 group of 2, 3 or 4 sextets. -/
def b64_group_bytes : List Nat → List Nat
  | [a, b] => [(a <<< 2) ||| (b >>> 4)]
  | [a, b, c] => [(a <<< 2) ||| (b >>> 4), ((b &&& 0xF) <<< 4) ||| (c >>> 2)]
  | [a, b, c, d] => [(a <<< 2) ||| (b >>> 4), ((b &&& 0xF) <<< 4) ||| (c >>> 2),
                     ((c &&& 0x3) <<< 6) ||| d]
  | _ => []

/-- Decode a sextet list, four sextets to three bytes. -/
def b64_decode_go : List Nat → List Nat
  | a :: b :: c :: d :: rest => b64_group_bytes [a, b, c, d] ++ b64_decode_go rest
  | rest => b64_group_bytes rest

/-- `base64.b64decode` on clean inputs: alphabet characters followed by at most
two `=` pads, total length a multiple of four.  Everything else is `none`
(which the callers route to the same fallback as the CPython `except` branch;
the decoder's leniency toward stray characters is not needed by any claim). -/
def b64_decode (s : String) : Option (List Nat) :=
  let main := s.data.takeWhile (fun c => !(c == '='))
  let pad := s.data.dropWhile (fun c => !(c == '='))
  match main.mapM b64_char_val with
  | none => none
  | some vals =>
    if pad.all (fun c => c == '=') ∧ pad.length ≤ 2 ∧
       (main.length + pad.length) % 4 = 0 ∧ main.length % 4 ≠ 1 then
      some (b64_decode_go vals)
    else none

/-- First four decoded bytes as a little-endian integer. -/
def le_from_4 (bytes : List Nat) : Nat :=
  bytes.getD 0 0 + bytes.getD 1 0 * 256 + bytes.getD 2 0 * 65536 +
    bytes.getD 3 0 * 16777216

/-- `extract_seed_value` (models.py:120): first 4 bytes of the base64-decoded
token, little-endian; short or undecodable tokens fall back to
`hash(token) & 0xFFFFFFFF`. -/
def extract_seed_value (h : String → Nat) (s : String) : Nat :=
  match b64_decode s with
  | some bytes =>
    if bytes.length ≥ 4 then le_from_4 bytes else h s &&& 0xFFFFFFFF
  | none => h s &&& 0xFFFFFFFF

/-! ## Data model (state.py) -/

/-- `Node` dataclass (state.py:14). -/
structure Node where
  nodeId : String
  ip : String
  publicKey : String
  assignedOrder : Int
  active : Bool
deriving DecidableEq

/-- Placeholder node for total list indexing (indices are proved in range
wherever the source indexes). -/
def dummy_node : Node := ⟨"", "", "", 0, true⟩

/-- `Vote` dataclass (state.py:44).  `selectedIndex` is the output of the
weighted draw, hence a natural number. -/
structure Vote where
  nodeId : String
  encryptedVote : String
  selectedIndex : Nat
deriving DecidableEq

/-- The logical `ConsensusState` aggregate (state.py:187): `NodeRegistry`
(dict plus `_next_order`), `TokenLedger.frozen_tokens`, `VotesStore.votes`,
`TurnState`, and `AccusationsStore.accusations`.  Disk persistence
(`save_state`/`load_state`) is outside the logical state. -/
structure ConsensusState where
  nodes : List (String × Node)
  next_order : Int
  frozen_tokens : List (String × Int)
  votes : List (String × Vote)
  current_turn : Nat
  current_seed : Option Nat
  seed_leader : Option String
  accusations : List (String × List String)
deriving DecidableEq

/-! ## NodeRegistry (state.py:51) -/

/-- `[n for n in self.nodes.values() if n.active]`. -/
def active_values (reg : List (String × Node)) : List Node :=
  (dict_values reg).filter (fun n => n.active)

/-- Stable insertion into a list sorted ascending by `assignedOrder`
(equal keys keep the earlier element first, like Python's stable sort). -/
def insert_by_order (x : Node) : List Node → List Node
  | [] => [x]
  | y :: ys =>
    if x.assignedOrder ≤ y.assignedOrder then x :: y :: ys
    else y :: insert_by_order x ys

/-- `sorted(nodes, key=lambda n: n.assignedOrder)` (stable, ascending). -/
def sort_by_order : List Node → List Node
  | [] => []
  | x :: xs => insert_by_order x (sort_by_order xs)

/-- Stable insertion into a list sorted descending by `ip_as_int`. -/
def insert_by_ip_desc (h : String → Nat) (x : Node) : List Node → List Node
  | [] => [x]
  | y :: ys =>
    if ip_as_int h y.ip ≤ ip_as_int h x.ip then x :: y :: ys
    else y :: insert_by_ip_desc h x ys

/-- `nodes.sort(key=lambda n: n.ip_as_int(), reverse=True)` (stable, descending). -/
def sort_by_ip_desc (h : String → Nat) : List Node → List Node
  | [] => []
  | x :: xs => insert_by_ip_desc h x (sort_by_ip_desc h xs)

/-- Position of the node with the given id (dict keys are unique, so ids
identify the Python objects `enumerate` walks over). -/
def find_index_by_id : List Node → String → Nat
  | [], _ => 0
  | n :: rest, nid => if n.nodeId = nid then 0 else find_index_by_id rest nid + 1

/-- `NodeRegistry._reorder_nodes` (state.py:78): sort the active nodes by IP
descending and overwrite each active node's `assignedOrder` with its position. -/
def reorder_nodes (h : String → Nat) (reg : List (String × Node)) :
    List (String × Node) :=
  let sorted := sort_by_ip_desc h (active_values reg)
  reg.map (fun p =>
    if p.2.active then
      (p.1, { p.2 with assignedOrder := (find_index_by_id sorted p.2.nodeId : Int) })
    else p)

/-- `NodeRegistry.get_leader_for_turn` (state.py:88). -/
def get_leader_for_turn (reg : List (String × Node)) (turn : Nat) : Option String :=
  let actives := active_values reg
  if actives.isEmpty then none
  else some ((sort_by_order actives).getD (turn % actives.length) dummy_node).nodeId

/-- `NodeRegistry.get_nodes_ordered` (state.py:99). -/
def get_nodes_ordered (reg : List (String × Node)) : List Node :=
  sort_by_order (active_values reg)

/-- `NodeRegistry.ban_node` (state.py:104): mark inactive, then reorder. -/
def ban_node (h : String → Nat) (reg : List (String × Node)) (nodeId : String) :
    List (String × Node) :=
  match dict_get reg nodeId with
  | some n => reorder_nodes h (dict_set reg nodeId { n with active := false })
  | none => reg

/-- `NodeRegistry.register_node` (state.py:58) lifted to the whole state:
idempotent on an existing id; otherwise create the node with order
`_next_order`, bump `_next_order`, reorder, and return the (reorder-updated,
thanks to object aliasing) `assignedOrder` of the new node. -/
def register_node (h : String → Nat) (st : ConsensusState)
    (nodeId ip publicKey : String) : ConsensusState × Int :=
  match dict_get st.nodes nodeId with
  | some n => (st, n.assignedOrder)
  | none =>
    let node : Node := ⟨nodeId, ip, publicKey, st.next_order, true⟩
    let reg2 := reorder_nodes h (dict_set st.nodes nodeId node)
    let ret := match dict_get reg2 nodeId with
      | some n2 => n2.assignedOrder
      | none => st.next_order
    ({ st with nodes := reg2, next_order := st.next_order + 1 }, ret)

/-! ## TokenLedger (state.py:111) -/

/-- `TokenLedger.freeze_tokens` (state.py:117): `frozen_tokens[nodeId] = tokens`
(assignment, not accumulation). -/
def ledger_freeze (tokens : List (String × Int)) (nodeId : String) (amount : Int) :
    List (String × Int) :=
  dict_set tokens nodeId amount

/-- `TokenLedger.get_tokens` (state.py:121): `frozen_tokens.get(nodeId, 0)`. -/
def get_tokens (tokens : List (String × Int)) (nodeId : String) : Int :=
  (dict_get tokens nodeId).getD 0

/-! ## AccusationsStore (state.py:163) -/

/-- `AccusationsStore.add_accusation` (state.py:169): ensure the accused's
list exists, then append the reporter if not already present. -/
def add_accusation (acc : List (String × List String)) (leaderId reporterId : String) :
    List (String × List String) :=
  let cur := (dict_get acc leaderId).getD []
  if reporterId ∈ cur then dict_set acc leaderId cur
  else dict_set acc leaderId (cur ++ [reporterId])

/-- `AccusationsStore.get_accusation_count` (state.py:177). -/
def get_accusation_count (acc : List (String × List String)) (leaderId : String) : Nat :=
  ((dict_get acc leaderId).getD []).length

/-- `AccusationsStore.clear_accusations` (state.py:181): `del` of the key. -/
def clear_accusations (acc : List (String × List String)) (leaderId : String) :
    List (String × List String) :=
  dict_del acc leaderId

/-! ## ConsensusEngine (engine.py) -/

/-- `ConsensusEngine.is_turn_leader` (engine.py:50); the Python `==` between
`Optional[str]` and `str` (`None == s` is `False`). -/
def is_turn_leader (st : ConsensusState) (nodeId : String) (turn : Nat) : Bool :=
  get_leader_for_turn st.nodes turn == some nodeId

/-- `ConsensusEngine.freeze_tokens` (engine.py:31): registered node and valid
signature required, then the ledger assignment. -/
def freeze_tokens (vrfy : String → String → String → Bool) (st : ConsensusState)
    (nodeId : String) (tokens : Int) (signature payload : String) :
    Bool × ConsensusState :=
  match dict_get st.nodes nodeId with
  | none => (false, st)
  | some node =>
    if vrfy node.publicKey payload signature then
      (true, { st with frozen_tokens := ledger_freeze st.frozen_tokens nodeId tokens })
    else (false, st)

/-- `ConsensusEngine._generate_seed` (engine.py:85): turn in the upper 16 bits
(with rollover), leader randomness in the lower 16. -/
def generate_seed (h : String → Nat) (turn : Nat) (encrypted_seed : String) : Nat :=
  ((turn &&& 0xFFFF) <<< 16) ||| (extract_seed_value h encrypted_seed &&& 0xFFFF)

/-- `ConsensusEngine.set_seed` (engine.py:55): leader-of-turn check, registry
check, signature check, then overwrite `current_turn`/`current_seed`/
`seed_leader`.  No duplicate-seed check and no vote clearing. -/
def set_seed (vrfy : String → String → String → Bool) (h : String → Nat)
    (st : ConsensusState) (leaderId encrypted_seed : String) (turn : Nat)
    (signature payload : String) : Bool × ConsensusState :=
  if !(is_turn_leader st leaderId turn) then (false, st)
  else
    match dict_get st.nodes leaderId with
    | none => (false, st)
    | some node =>
      if vrfy node.publicKey payload signature then
        (true, { st with
                  current_turn := turn
                  current_seed := some (generate_seed h turn encrypted_seed)
                  seed_leader := some leaderId })
      else (false, st)

/-- Cumulative-prefix walk of `_calculate_weighted_vote` (engine.py:155-159):
`cumulative += weight; if target < cumulative: return i`.  `none` is falling
off the loop. -/
def select_loop : List Nat → Nat → Nat → Nat → Option Nat
  | [], _, _, _ => none
  | w :: ws, target, cum, i =>
    if target < cum + w then some i else select_loop ws target (cum + w) (i + 1)

/-- The walk plus the trailing `return len(nodes) - 1` fallback (engine.py:162). -/
def select_index (weights : List Nat) (target : Nat) (n : Nat) : Nat :=
  (select_loop weights target 0 0).getD (n - 1)

/-- `ConsensusEngine._calculate_weighted_vote` (engine.py:127): ordered active
nodes, stake weights clamped at 0 (`max(tokens, 0)` is `Int.toNat`), uniform
weight 1 per node when no stake is frozen, one `randrange(total_weight)` draw
from `random.Random(seed)`, then the cumulative walk.  The voting node's id is
taken (and ignored) exactly as in the source. -/
def calculate_weighted_vote (fuel : Nat) (st : ConsensusState)
    (voting_nodeId : String) (seed : Nat) : Option Nat :=
  let nodes := get_nodes_ordered st.nodes
  if nodes.isEmpty then some 0
  else
    let weights := nodes.map (fun n => (get_tokens st.frozen_tokens n.nodeId).toNat)
    let total := weights.sum
    let wt := if total = 0 then (List.replicate nodes.length 1, nodes.length)
              else (weights, total)
    match randrange_fuel fuel seed wt.2 with
    | none => none
    | some target => some (select_index wt.1 target nodes.length)

/-- `ConsensusEngine.record_vote` (engine.py:102): registry check, signature
check, seed-published check, then compute the weighted selection and store the
vote (overwriting this node's previous vote).  `none` only if the
rejection-sampling loop exceeds the fuel. -/
def record_vote (vrfy : String → String → String → Bool) (fuel : Nat)
    (st : ConsensusState) (nodeId encrypted_vote signature payload : String) :
    Option (Bool × ConsensusState) :=
  match dict_get st.nodes nodeId with
  | none => some (false, st)
  | some node =>
    if vrfy node.publicKey payload signature then
      match st.current_seed with
      | none => some (false, st)
      | some seed =>
        match calculate_weighted_vote fuel st nodeId seed with
        | none => none
        | some idx =>
          some (true, { st with
            votes := dict_set st.votes nodeId ⟨nodeId, encrypted_vote, idx⟩ })
    else some (false, st)

/-- The per-candidate tallying loop of `tally_votes` (engine.py:179-184): one
unit per vote whose `selectedIndex` is in range, keyed by the selected node's
id, in dict insertion order. -/
def vote_counts (votes : List Vote) (nodes : List Node) : List (String × Nat) :=
  votes.foldl (fun acc v =>
    if v.selectedIndex < nodes.length then
      let key := (nodes.getD v.selectedIndex dummy_node).nodeId
      dict_set acc key ((dict_get acc key).getD 0 + 1)
    else acc) []

/-- `max(vote_counts, key=vote_counts.get)`: first key of maximal count in
dict order. -/
def max_by_count : List (String × Nat) → Option (String × Nat)
  | [] => none
  | x :: rest => some (rest.foldl (fun best y => if y.2 > best.2 then y else best) x)

/-- `math.ceil(2 * n / 3)`: the Python float computation, modelled by the exact
integer ceiling (they agree for every realistic count). -/
def ceil_two_thirds (n : Nat) : Nat := (2 * n + 2) / 3

/-- `ConsensusEngine.tally_votes` (engine.py:164): `(winner, agreement,
threshold_reached)` with unit counting; the agreement ratio is `ℚ` for the
Python float quotient. -/
def tally_votes (st : ConsensusState) : Option String × ℚ × Bool :=
  let votes := dict_values st.votes
  if votes.isEmpty then (none, 0, false)
  else
    let nodes := get_nodes_ordered st.nodes
    if nodes.isEmpty then (none, 0, false)
    else
      match max_by_count (vote_counts votes nodes) with
      | none => (none, 0, false)
      | some (winner, max_votes) =>
        let total := votes.length
        let agreement : ℚ := if total > 0 then (max_votes : ℚ) / (total : ℚ) else 0
        (some winner, agreement, decide (max_votes ≥ ceil_two_thirds total))

/-- `ConsensusEngine._advance_turn` (engine.py:283) together with
`TurnState.next_turn` (state.py:37) and `VotesStore.clear_votes` (state.py:149). -/
def advance_turn (st : ConsensusState) : ConsensusState :=
  { st with
      current_turn := (st.current_turn + 1) % 65536
      current_seed := none
      seed_leader := none
      votes := [] }

/-- `ConsensusEngine.submit_block` (engine.py:222): registry check, signature
check, then the submitter must be the tallied winner with the threshold
reached; on success the turn advances.  The block payload is opaque to the
engine. -/
def submit_block (vrfy : String → String → String → Bool) (st : ConsensusState)
    (leaderId block_data signature payload : String) : Bool × ConsensusState :=
  match dict_get st.nodes leaderId with
  | none => (false, st)
  | some node =>
    if vrfy node.publicKey payload signature then
      let t := tally_votes st
      if t.2.2 = false ∨ t.1 ≠ some leaderId then (false, st)
      else (true, advance_turn st)
    else (false, st)

/-- `ConsensusEngine.report_leader` (engine.py:251): registry and signature
checks for the reporter, record the accusation, then ban and clear if the
distinct-accuser count reached `ceil(2 * active / 3)`.  Returns `True` whether
or not the ban fired. -/
def report_leader (vrfy : String → String → String → Bool) (h : String → Nat)
    (st : ConsensusState) (reporterId leaderId evidence signature payload : String) :
    Bool × ConsensusState :=
  match dict_get st.nodes reporterId with
  | none => (false, st)
  | some node =>
    if vrfy node.publicKey payload signature then
      let acc1 := add_accusation st.accusations leaderId reporterId
      let active := ((dict_values st.nodes).filter (fun n => n.active)).length
      let required := ceil_two_thirds active
      if get_accusation_count acc1 leaderId ≥ required then
        (true, { st with
                  nodes := ban_node h st.nodes leaderId
                  accusations := clear_accusations acc1 leaderId })
      else (true, { st with accusations := acc1 })
    else (false, st)

/-- Active flag of a registered node (`False` for unknown ids). -/
def node_active (reg : List (String × Node)) (nodeId : String) : Bool :=
  match dict_get reg nodeId with
  | some n => n.active
  | none => false

/-! ## Specification-side definition for the tally refinement check -/

/-- The tally attribution §4.5 of the spec prescribes, stated from the spec's
words for comparison with the implemented `tally_votes`: each recorded vote
contributes its node's stake weight (not one unit) to the candidate
`order[selectedIndex mod len(order)]`. -/
def spec_vote_weight (st : ConsensusState) (cand : String) : Int :=
  let order := get_nodes_ordered st.nodes
  (((dict_values st.votes).filter (fun v =>
      (order.getD (v.selectedIndex % order.length) dummy_node).nodeId == cand)).map
    (fun v => get_tokens st.frozen_tokens v.nodeId)).sum

/-! ## Concrete scenario states -/

/-- A provider whose `verify` accepts every signature: one legal instantiation
of the injected `CryptoProvider` interface, used for concrete scenarios. -/
def vrfy_all : String → String → String → Bool := fun _ _ _ => true

/-- One concrete value of the process-salted string hash. -/
def hash_zero : String → Nat := fun _ => 0

/-- Another concrete string hash, to exhibit hash-dependent ordering. -/
def hash_42 : String → Nat := fun _ => 42

def node_a : Node := ⟨"a", "10.0.0.1", "pk-a", 0, true⟩

def node_b : Node := ⟨"b", "10.0.0.2", "pk-b", 1, true⟩

def node_c : Node := ⟨"c", "10.0.0.3", "pk-c", 2, true⟩

/-- Node `a`, registered but deactivated. -/
def node_a_banned : Node := ⟨"a", "10.0.0.1", "pk-a", 0, false⟩

/-- The empty aggregate (fresh `ConsensusState`). -/
def st_empty : ConsensusState := ⟨[], 0, [], [], 0, none, none, []⟩

/-- Three active nodes; `a` holds stake 100, `b` and `c` hold 1 each; `a`
voted for index 1 (node `b`), `b` and `c` voted for index 2 (node `c`). -/
def st_tally : ConsensusState :=
  ⟨[("a", node_a), ("b", node_b), ("c", node_c)], 3,
   [("a", 100), ("b", 1), ("c", 1)],
   [("a", ⟨"a", "t", 1⟩), ("b", ⟨"b", "t", 2⟩), ("c", ⟨"c", "t", 2⟩)],
   0, some 171, some "a", []⟩

/-- One registered active node `a` with zero frozen stake; a seed is published. -/
def st_zero_stake : ConsensusState :=
  ⟨[("a", node_a)], 1, [], [], 0, some 171, some "a", []⟩

/-- The state of `st_zero_stake` after node `a`'s vote is recorded. -/
def st_zero_stake_voted : ConsensusState :=
  { st_zero_stake with votes := [("a", ⟨"a", "tok", 0⟩)] }

/-- One registered active node `a`; a vote from the previous turn (turn 5) is
still stored and no seed is set. -/
def st_prior_vote : ConsensusState :=
  ⟨[("a", node_a)], 1, [], [("a", ⟨"a", "x", 0⟩)], 5, none, none, []⟩

/-- One registered active node `a` with an empty ledger. -/
def st_one_node : ConsensusState :=
  ⟨[("a", node_a)], 1, [], [], 0, none, none, []⟩

/-- Node `a` registered but deactivated (no active nodes); a seed is published. -/
def st_inactive : ConsensusState :=
  ⟨[("a", node_a_banned)], 1, [], [], 0, some 5, some "a", []⟩

/-- Three active nodes; `c` is already accused by `a`. -/
def st_accuse : ConsensusState :=
  ⟨[("a", node_a), ("b", node_b), ("c", node_c)], 3, [], [], 0, none, none,
   [("c", ["a"])]⟩

/-! ## General lemmas -/

theorem dict_get_set_self (l : List (String × α)) (k : String) (v : α) :
    dict_get (dict_set l k v) k = some v := by
  induction l with
  | nil => simp [dict_set, dict_get]
  | cons p rest ih =>
    obtain ⟨k', v'⟩ := p
    by_cases h : k' = k
    · simp [dict_set, h, dict_get]
    · simp [dict_set, h, dict_get, ih]

theorem dict_get_del_self (l : List (String × α)) (k : String) :
    dict_get (dict_del l k) k = none := by
  induction l with
  | nil => rfl
  | cons p rest ih =>
    obtain ⟨k', v'⟩ := p
    by_cases h : k' = k
    · simpa [dict_del, List.filter_cons, h] using ih
    · simpa [dict_del, List.filter_cons, h, dict_get] using ih

theorem dict_get_map_cond (g : Node → Node) (l : List (String × Node)) (k : String) :
    dict_get (l.map (fun p => if p.2.active then (p.1, g p.2) else p)) k
      = (dict_get l k).map (fun n => if n.active then g n else n) := by
  induction l with
  | nil => rfl
  | cons p rest ih =>
    obtain ⟨k', nid, nip, npk, nord, nact⟩ := p
    cases nact <;> by_cases hk : k' = k <;>
      simp [dict_get, hk, ih]

theorem dict_get_reorder (h : String → Nat) (reg : List (String × Node)) (k : String) :
    dict_get (reorder_nodes h reg) k = (dict_get reg k).map (fun n =>
      if n.active then
        { n with assignedOrder :=
            (find_index_by_id (sort_by_ip_desc h (active_values reg)) n.nodeId : Int) }
      else n) := by
  unfold reorder_nodes
  exact dict_get_map_cond
    (fun n => { n with assignedOrder :=
      (find_index_by_id (sort_by_ip_desc h (active_values reg)) n.nodeId : Int) }) reg k

theorem length_insert_by_order (x : Node) (l : List Node) :
    (insert_by_order x l).length = l.length + 1 := by
  induction l with
  | nil => rfl
  | cons y ys ih =>
    by_cases h : x.assignedOrder ≤ y.assignedOrder <;>
      simp [insert_by_order, h, ih]

theorem length_sort_by_order (l : List Node) :
    (sort_by_order l).length = l.length := by
  induction l with
  | nil => rfl
  | cons y ys ih => simp [sort_by_order, length_insert_by_order, ih]

theorem sum_replicate_one (n : Nat) : (List.replicate n 1).sum = n := by
  induction n with
  | zero => rfl
  | succ m ih => simp [List.replicate, ih, Nat.add_comm]

theorem randbelow_go_lt (fuel : Nat) :
    ∀ (k n : Nat) (s : MTState) (r : Nat), randbelow_go fuel k n s = some r → r < n := by
  induction fuel with
  | zero => intro k n s r h; simp [randbelow_go] at h
  | succ fuel ih =>
    intro k n s r h
    unfold randbelow_go at h
    by_cases hc : (getrandbits k s).1 < n
    · simp [hc] at h
      omega
    · simp [hc] at h
      exact ih k n _ r h

theorem randrange_fuel_lt (fuel seed n r : Nat)
    (h : randrange_fuel fuel seed n = some r) : r < n := by
  unfold randrange_fuel at h
  by_cases hn : n = 0
  · simp [hn] at h
  · simp [hn] at h
    exact randbelow_go_lt fuel _ n _ r h

theorem select_loop_some (ws : List Nat) :
    ∀ (t cum i : Nat), cum ≤ t → t < cum + ws.sum →
      ∃ j, select_loop ws t cum i = some j ∧ j < i + ws.length := by
  induction ws with
  | nil => intro t cum i h1 h2; simp at h2; omega
  | cons w ws ih =>
    intro t cum i h1 h2
    by_cases hc : t < cum + w
    · exact ⟨i, by simp [select_loop, hc], by simp only [List.length_cons]; omega⟩
    · obtain ⟨j, hj, hjl⟩ := ih t (cum + w) (i + 1)
        (by omega) (by simp only [List.sum_cons] at h2 ⊢; omega)
      exact ⟨j, by simp [select_loop, hc, hj],
        by simp only [List.length_cons] at hjl ⊢; omega⟩

theorem foldl_max_mem (l : List (String × Nat)) :
    ∀ b : String × Nat,
      l.foldl (fun best y => if y.2 > best.2 then y else best) b = b ∨
      l.foldl (fun best y => if y.2 > best.2 then y else best) b ∈ l := by
  induction l with
  | nil => intro b; left; rfl
  | cons y ys ih =>
    intro b
    rw [List.foldl_cons]
    rcases ih (if y.2 > b.2 then y else b) with h | h
    · rw [h]
      by_cases hc : y.2 > b.2
      · right; simp [hc]
      · left; simp [hc]
    · right; exact List.mem_cons_of_mem _ h

theorem foldl_max_ge (l : List (String × Nat)) :
    ∀ b : String × Nat,
      b.2 ≤ (l.foldl (fun best y => if y.2 > best.2 then y else best) b).2 ∧
      ∀ x ∈ l, x.2 ≤ (l.foldl (fun best y => if y.2 > best.2 then y else best) b).2 := by
  induction l with
  | nil => intro b; exact ⟨Nat.le_refl _, by intro x hx; simp at hx⟩
  | cons y ys ih =>
    intro b
    rw [List.foldl_cons]
    obtain ⟨hb, hall⟩ := ih (if y.2 > b.2 then y else b)
    have hby : b.2 ≤ (if y.2 > b.2 then y else b).2 := by
      by_cases hc : y.2 > b.2
      · rw [if_pos hc]; omega
      · rw [if_neg hc]
    have hyy : y.2 ≤ (if y.2 > b.2 then y else b).2 := by
      by_cases hc : y.2 > b.2
      · rw [if_pos hc]
      · rw [if_neg hc]; omega
    refine ⟨Nat.le_trans hby hb, ?_⟩
    intro x hx
    rcases List.mem_cons.mp hx with rfl | hx
    · exact Nat.le_trans hyy hb
    · exact hall x hx

theorem max_by_count_spec (l : List (String × Nat)) (x : String × Nat)
    (h : max_by_count l = some x) : x ∈ l ∧ ∀ y ∈ l, y.2 ≤ x.2 := by
  cases l with
  | nil => simp [max_by_count] at h
  | cons b rest =>
    simp only [max_by_count, Option.some.injEq] at h
    subst h
    constructor
    · rcases foldl_max_mem rest b with h | h
      · rw [h]; exact List.mem_cons_self _ _
      · exact List.mem_cons_of_mem _ h
    · intro y hy
      rcases List.mem_cons.mp hy with rfl | hy
      · exact (foldl_max_ge rest y).1
      · exact (foldl_max_ge rest b).2 y hy

theorem ceil_two_thirds_le (n m : Nat) : ceil_two_thirds n ≤ m ↔ 2 * n ≤ 3 * m := by
  unfold ceil_two_thirds
  omega

/-! ## Claim theorems -/

/-- C3 (confirmed): the weighted selection computation is a pure deterministic
function of the fuel, state snapshot (ordered active nodes with their
frozen-stake weights) and 32-bit seed; in particular it does not depend on
which node invokes it — the source never consults `voting_nodeId`, so any two
invocations with the same seed and snapshot return the same index. -/
theorem C3_selection_deterministic (fuel : Nat) (st : ConsensusState)
    (seed : Nat) (n1 n2 : String) :
    calculate_weighted_vote fuel st n1 seed = calculate_weighted_vote fuel st n2 seed :=
  rfl

/-- C7 counterexample: freezing 5 tokens and then 3 tokens for the same
registered node leaves the balance at 3, not at the additive 5 + 3:
`TokenLedger.freeze_tokens` overwrites instead of accumulating. -/
theorem C7_counterexample :
    get_tokens (freeze_tokens vrfy_all
        (freeze_tokens vrfy_all st_one_node "a" 5 "s" "p").2 "a" 3 "s" "p").2.frozen_tokens
        "a" = 3 ∧
    get_tokens (freeze_tokens vrfy_all
        (freeze_tokens vrfy_all st_one_node "a" 5 "s" "p").2 "a" 3 "s" "p").2.frozen_tokens
        "a" ≠ 5 + 3 := by
  decide

/-- C7 (corrected): freezing a (nonnegative or not) amount for a registered
node with a verifying signature sets the frozen balance to exactly that
amount, replacing any previous balance; freezing for an unregistered node is
rejected with all balances unchanged; a never-frozen node has balance 0. -/
theorem C7_amended (vrfy : String → String → String → Bool) (st : ConsensusState)
    (nodeId : String) (amount : Int) (sig payload : String) :
    (dict_get st.nodes nodeId = none →
      freeze_tokens vrfy st nodeId amount sig payload = (false, st)) ∧
    (∀ node, dict_get st.nodes nodeId = some node →
      vrfy node.publicKey payload sig = true →
      freeze_tokens vrfy st nodeId amount sig payload =
        (true, { st with frozen_tokens := dict_set st.frozen_tokens nodeId amount }) ∧
      get_tokens (dict_set st.frozen_tokens nodeId amount) nodeId = amount) ∧
    (dict_get st.frozen_tokens nodeId = none → get_tokens st.frozen_tokens nodeId = 0) := by
  refine ⟨?_, ?_, ?_⟩
  · intro hn
    simp [freeze_tokens, hn]
  · intro node hn hv
    refine ⟨by simp [freeze_tokens, hn, hv, ledger_freeze], ?_⟩
    simp [get_tokens, dict_get_set_self]
  · intro hn
    simp [get_tokens, hn]

theorem C7_witness :
    freeze_tokens vrfy_all st_one_node "a" 7 "s" "p" =
      (true, { st_one_node with
                frozen_tokens := dict_set st_one_node.frozen_tokens "a" 7 }) ∧
    get_tokens (dict_set st_one_node.frozen_tokens "a" 7) "a" = 7 ∧
    get_tokens st_empty.frozen_tokens "a" = 0 :=
  ⟨((C7_amended vrfy_all st_one_node "a" 7 "s" "p").2.1 node_a (by decide) (by decide)).1,
   ((C7_amended vrfy_all st_one_node "a" 7 "s" "p").2.1 node_a (by decide) (by decide)).2,
   (C7_amended vrfy_all st_empty "a" 7 "s" "p").2.2 (by decide)⟩

/-- C8 counterexample: registering with the malformed address "notanip"
succeeds and creates an active node — there is no `InvalidAddress` outcome —
and the ordering key silently falls back to the truncated string hash
(`ip_as_int` returns whatever the ambient hash yields, here 42). -/
theorem C8_counterexample :
    dict_get (register_node hash_zero st_empty "z" "notanip" "pk").1.nodes "z" =
      some ⟨"z", "notanip", "pk", 0, true⟩ ∧
    parse_ipv4 "notanip" = none ∧
    ip_as_int hash_42 "notanip" = 42 := by
  decide

/-- C8 (corrected): `register_node` accepts any address string: registering an
unknown id always creates an active node carrying the given ip and key, and
for strings that do not parse as an IPv4 address the rotation-ordering key is
the silent hash fallback `hash(ip) & 0xFFFFFFFF`. -/
theorem C8_amended (h : String → Nat) (st : ConsensusState) (nodeId ip pk : String)
    (hnew : dict_get st.nodes nodeId = none) :
    (∃ n : Node, dict_get (register_node h st nodeId ip pk).1.nodes nodeId = some n ∧
      n.ip = ip ∧ n.publicKey = pk ∧ n.active = true) ∧
    (∀ s, parse_ipv4 s = none → ip_as_int h s = h s &&& 0xFFFFFFFF) := by
  constructor
  · unfold register_node
    rw [hnew]
    refine ⟨{ nodeId := nodeId, ip := ip, publicKey := pk,
              assignedOrder := (find_index_by_id
                (sort_by_ip_desc h (active_values
                  (dict_set st.nodes nodeId ⟨nodeId, ip, pk, st.next_order, true⟩)))
                nodeId : Int),
              active := true }, ?_, rfl, rfl, rfl⟩
    simp only [dict_get_reorder, dict_get_set_self, Option.map_some']
    rfl
  · intro s hs
    simp [ip_as_int, hs]

theorem C8_witness :
    (dict_get (register_node hash_zero st_empty "z" "10.0.0.9" "pk").1.nodes "z").isSome
      = true ∧
    ip_as_int hash_zero "zz" = hash_zero "zz" &&& 0xFFFFFFFF := by
  obtain ⟨n, hn, -, -, -⟩ :=
    (C8_amended hash_zero st_empty "z" "10.0.0.9" "pk" (by decide)).1
  exact ⟨by rw [hn]; rfl,
    (C8_amended hash_zero st_empty "z" "10.0.0.9" "pk" (by decide)).2 "zz" (by decide)⟩

/-- C5 (confirmed): `get_leader_for_turn` returns `none` exactly when there is
no active node, and otherwise the id of the active node at position
`turn mod count` in the actives sorted by `assignedOrder`; and a successful
`set_seed` implies its caller is that designated leader. -/
theorem C5_leader_rotation (reg : List (String × Node)) (turn : Nat) :
    (get_leader_for_turn reg turn = none ↔ active_values reg = []) ∧
    (active_values reg ≠ [] →
      get_leader_for_turn reg turn =
        some ((sort_by_order (active_values reg)).getD
          (turn % (active_values reg).length) dummy_node).nodeId) ∧
    (∀ vrfy h st leaderId enc sig payload, st.nodes = reg →
      (set_seed vrfy h st leaderId enc turn sig payload).1 = true →
      get_leader_for_turn reg turn = some leaderId) := by
  refine ⟨?_, ?_, ?_⟩
  · cases hae : active_values reg with
    | nil => simp [get_leader_for_turn, hae]
    | cons x xs => simp [get_leader_for_turn, hae]
  · intro hne
    cases hae : active_values reg with
    | nil => exact absurd hae hne
    | cons x xs => simp [get_leader_for_turn, hae]
  · intro vrfy h st leaderId enc sig payload hreg htrue
    by_cases hl : is_turn_leader st leaderId turn
    · have : (get_leader_for_turn st.nodes turn == some leaderId) = true := hl
      rw [← hreg]
      exact eq_of_beq this
    · simp [set_seed, hl] at htrue

theorem C5_witness :
    (get_leader_for_turn st_prior_vote.nodes 6 = none ↔
      active_values st_prior_vote.nodes = []) ∧
    get_leader_for_turn st_prior_vote.nodes 6 =
      some ((sort_by_order (active_values st_prior_vote.nodes)).getD
        (6 % (active_values st_prior_vote.nodes).length) dummy_node).nodeId ∧
    get_leader_for_turn st_prior_vote.nodes 6 = some "a" :=
  ⟨(C5_leader_rotation st_prior_vote.nodes 6).1,
   (C5_leader_rotation st_prior_vote.nodes 6).2.1 (by decide),
   (C5_leader_rotation st_prior_vote.nodes 6).2.2 vrfy_all hash_zero st_prior_vote
     "a" "AAAAAA==" "s" "p" rfl (by decide)⟩

/-- C4 counterexample: with a vote from turn 5 still stored and no seed set,
the leader publishes a seed for the new turn 6 — the stored prior-turn vote
survives — and a second publish for the same turn 6 succeeds as well instead
of being rejected. -/
theorem C4_counterexample :
    (set_seed vrfy_all hash_zero st_prior_vote "a" "AAAAAA==" 6 "s" "p").1 = true ∧
    (set_seed vrfy_all hash_zero st_prior_vote "a" "AAAAAA==" 6 "s" "p").2.votes =
      st_prior_vote.votes ∧
    st_prior_vote.votes ≠ [] ∧
    (set_seed vrfy_all hash_zero
        (set_seed vrfy_all hash_zero st_prior_vote "a" "AAAAAA==" 6 "s" "p").2
        "a" "AQAAAA==" 6 "s2" "p2").1 = true := by
  decide

/-- C4 (corrected): `set_seed` neither rejects a repeated publish for the same
turn nor clears votes: a successful publish stores the new seed, leaves the
vote store untouched, and a second publish by the same leader for the same
turn succeeds whenever its signature verifies; votes are cleared only by
`_advance_turn` (which runs on successful block submission). -/
theorem C4_amended (vrfy : String → String → String → Bool) (h : String → Nat)
    (st : ConsensusState) (leaderId enc : String) (turn : Nat) (sig payload : String)
    (st' : ConsensusState)
    (hset : set_seed vrfy h st leaderId enc turn sig payload = (true, st')) :
    st'.votes = st.votes ∧
    st'.current_seed = some (generate_seed h turn enc) ∧
    (∀ node enc2 sig2 pay2, dict_get st.nodes leaderId = some node →
      vrfy node.publicKey pay2 sig2 = true →
      (set_seed vrfy h st' leaderId enc2 turn sig2 pay2).1 = true) ∧
    (advance_turn st').votes = [] := by
  by_cases hl : is_turn_leader st leaderId turn
  · cases hd : dict_get st.nodes leaderId with
    | none => simp [set_seed, hl, hd] at hset
    | some node0 =>
      by_cases hv : vrfy node0.publicKey payload sig
      · simp only [set_seed, hl, hd, hv, Bool.not_true, Bool.false_eq_true,
          if_false, if_true, Prod.mk.injEq, true_and] at hset
        subst hset
        refine ⟨rfl, rfl, ?_, rfl⟩
        intro node enc2 sig2 pay2 hd2 hv2
        have hnode : node0 = node := Option.some.inj hd2
        subst hnode
        have hl' : is_turn_leader
            { st with current_turn := turn
                      current_seed := some (generate_seed h turn enc)
                      seed_leader := some leaderId } leaderId turn = true := hl
        simp [set_seed, hl', hd, hv2]
      · simp [set_seed, hl, hd, hv] at hset
  · simp [set_seed, hl] at hset

theorem C4_amended_witness :
    (set_seed vrfy_all hash_zero st_prior_vote "a" "AAAAAA==" 6 "s" "p").2.votes =
      st_prior_vote.votes ∧
    (set_seed vrfy_all hash_zero st_prior_vote "a" "AAAAAA==" 6 "s" "p").2.current_seed =
      some (generate_seed hash_zero 6 "AAAAAA==") ∧
    (set_seed vrfy_all hash_zero
        (set_seed vrfy_all hash_zero st_prior_vote "a" "AAAAAA==" 6 "s" "p").2
        "a" "AQAAAA==" 6 "s2" "p2").1 = true ∧
    (advance_turn
        (set_seed vrfy_all hash_zero st_prior_vote "a" "AAAAAA==" 6 "s" "p").2).votes
      = [] := by
  obtain ⟨h1, h2, h3, h4⟩ :=
    C4_amended vrfy_all hash_zero st_prior_vote "a" "AAAAAA==" 6 "s" "p"
      (set_seed vrfy_all hash_zero st_prior_vote "a" "AAAAAA==" 6 "s" "p").2 (by decide)
  exact ⟨h1, h2, h3 node_a "AQAAAA==" "s2" "p2" (by decide) (by decide), h4⟩

/-- C9 (confirmed): whenever one of the five mutating engine operations
returns a rejection (`False`), the consensus state it returns is exactly the
state it was given — every rejection happens before any mutation, so no
partial update survives. -/
theorem C9_rejection_no_mutation (vrfy : String → String → String → Bool)
    (h : String → Nat) (fuel : Nat) (st st' : ConsensusState)
    (nodeId leaderId reporterId tok sig payload blk ev : String)
    (amount : Int) (turn : Nat) :
    (freeze_tokens vrfy st nodeId amount sig payload = (false, st') → st' = st) ∧
    (set_seed vrfy h st leaderId tok turn sig payload = (false, st') → st' = st) ∧
    (record_vote vrfy fuel st nodeId tok sig payload = some (false, st') → st' = st) ∧
    (submit_block vrfy st leaderId blk sig payload = (false, st') → st' = st) ∧
    (report_leader vrfy h st reporterId leaderId ev sig payload = (false, st') →
      st' = st) := by
  refine ⟨?_, ?_, ?_, ?_, ?_⟩
  · intro hf
    unfold freeze_tokens at hf
    repeat' split at hf
    all_goals simp_all
  · intro hf
    unfold set_seed at hf
    repeat' split at hf
    all_goals simp_all
  · intro hf
    unfold record_vote at hf
    repeat' split at hf
    all_goals simp_all
  · intro hf
    simp only [submit_block] at hf
    repeat' split at hf
    all_goals simp_all
  · intro hf
    simp only [report_leader] at hf
    repeat' split at hf
    all_goals simp_all

theorem C9_witness :
    st_empty = st_empty ∧ st_empty = st_empty ∧ st_empty = st_empty ∧
    st_empty = st_empty ∧ st_empty = st_empty :=
  ⟨(C9_rejection_no_mutation vrfy_all hash_zero 10 st_empty st_empty
      "a" "a" "a" "t" "s" "p" "b" "e" 5 0).1 (by decide),
   (C9_rejection_no_mutation vrfy_all hash_zero 10 st_empty st_empty
      "a" "a" "a" "t" "s" "p" "b" "e" 5 0).2.1 (by decide),
   (C9_rejection_no_mutation vrfy_all hash_zero 10 st_empty st_empty
      "a" "a" "a" "t" "s" "p" "b" "e" 5 0).2.2.1 (by decide),
   (C9_rejection_no_mutation vrfy_all hash_zero 10 st_empty st_empty
      "a" "a" "a" "t" "s" "p" "b" "e" 5 0).2.2.2.1 (by decide),
   (C9_rejection_no_mutation vrfy_all hash_zero 10 st_empty st_empty
      "a" "a" "a" "t" "s" "p" "b" "e" 5 0).2.2.2.2 (by decide)⟩

set_option maxRecDepth 1000000 in
/-- C2 counterexample: node "a" is registered and active with frozen balance
0, a seed is published, and the signature verifies — yet `record_vote`
accepts and stores the vote (computed through the real MT19937 draw), and
that zero-stake vote then single-handedly decides the tally. -/
theorem C2_counterexample :
    get_tokens st_zero_stake.frozen_tokens "a" = 0 ∧
    record_vote vrfy_all 1000 st_zero_stake "a" "tok" "sig" "pay" =
      some (true, st_zero_stake_voted) ∧
    (tally_votes st_zero_stake_voted).1 = some "a" ∧
    (tally_votes st_zero_stake).1 = none := by
  decide

/-- C2 (corrected): `record_vote` checks only registration, the signature and
seed presence — never the frozen balance: whenever those checks pass and the
weighted draw returns, the vote of a node with any balance (including 0) is
stored and counts as one full unit in the tally. -/
theorem C2_amended (vrfy : String → String → String → Bool) (fuel : Nat)
    (st : ConsensusState) (nodeId enc sig pay : String) (node : Node) (seed i : Nat)
    (hn : dict_get st.nodes nodeId = some node)
    (hv : vrfy node.publicKey pay sig = true)
    (hs : st.current_seed = some seed)
    (hc : calculate_weighted_vote fuel st nodeId seed = some i) :
    record_vote vrfy fuel st nodeId enc sig pay =
      some (true, { st with votes := dict_set st.votes nodeId ⟨nodeId, enc, i⟩ }) := by
  simp [record_vote, hn, hv, hs, hc]

theorem C2_amended_witness :
    record_vote vrfy_all 10 st_inactive "a" "e" "s" "p" =
      some (true, { st_inactive with
        votes := dict_set st_inactive.votes "a" ⟨"a", "e", 0⟩ }) :=
  C2_amended vrfy_all 10 st_inactive "a" "e" "s" "p" node_a_banned 5 0
    (by decide) (by decide) (by decide) (by decide)

/-- C6 (confirmed): after a successful fraud report against a registered,
currently-active accused node, the accused ends up deactivated exactly when
the distinct-accuser count (including this report) reached
`ceil(2 * activeNodeCount / 3)`; on expulsion the accused's accusation set is
cleared; and a repeated accusation by an accuser already recorded never
changes the count. -/
theorem C6_expulsion_exact (vrfy : String → String → String → Bool)
    (h : String → Nat) (st : ConsensusState)
    (reporterId leaderId ev sig pay : String) (accused : Node) (st' : ConsensusState)
    (hacc : dict_get st.nodes leaderId = some accused)
    (hact : accused.active = true)
    (hrep : report_leader vrfy h st reporterId leaderId ev sig pay = (true, st')) :
    (node_active st'.nodes leaderId = false ↔
      get_accusation_count (add_accusation st.accusations leaderId reporterId) leaderId ≥
        ceil_two_thirds ((dict_values st.nodes).filter (fun n => n.active)).length) ∧
    (get_accusation_count (add_accusation st.accusations leaderId reporterId) leaderId ≥
        ceil_two_thirds ((dict_values st.nodes).filter (fun n => n.active)).length →
      dict_get st'.accusations leaderId = none) ∧
    (∀ acc (l r : String), r ∈ (dict_get acc l).getD ([] : List String) →
      get_accusation_count (add_accusation acc l r) l = get_accusation_count acc l) := by
  have hdedup : ∀ acc (l r : String), r ∈ (dict_get acc l).getD ([] : List String) →
      get_accusation_count (add_accusation acc l r) l = get_accusation_count acc l := by
    intro acc l r hr
    simp [add_accusation, hr, get_accusation_count, dict_get_set_self]
  cases hrd : dict_get st.nodes reporterId with
  | none => simp [report_leader, hrd] at hrep
  | some rnode =>
    by_cases hrv : vrfy rnode.publicKey pay sig
    · by_cases hth :
        get_accusation_count (add_accusation st.accusations leaderId reporterId) leaderId ≥
          ceil_two_thirds ((dict_values st.nodes).filter (fun n => n.active)).length
      · have hst : st' = { st with
            nodes := ban_node h st.nodes leaderId
            accusations := clear_accusations
              (add_accusation st.accusations leaderId reporterId) leaderId } := by
          simp only [report_leader, hrd, hrv, if_true, hth, Prod.mk.injEq,
            true_and] at hrep
          exact hrep.symm
        subst hst
        refine ⟨⟨fun _ => hth, fun _ => ?_⟩, fun _ => ?_, hdedup⟩
        · simp [node_active, ban_node, hacc, dict_get_reorder, dict_get_set_self]
        · simp [clear_accusations, dict_get_del_self]
      · have hst : st' = { st with
            accusations := add_accusation st.accusations leaderId reporterId } := by
          simp only [report_leader, hrd, hrv, if_true, hth, if_false,
            Prod.mk.injEq, true_and] at hrep
          exact hrep.symm
        subst hst
        refine ⟨⟨fun hfalse => ?_, fun hge => absurd hge hth⟩,
          fun hge => absurd hge hth, hdedup⟩
        exfalso
        simp [node_active, hacc, hact] at hfalse
    · simp [report_leader, hrd, hrv] at hrep

theorem C6_witness :
    node_active
      (report_leader vrfy_all hash_zero st_accuse "b" "c" "ev" "s" "p").2.nodes "c"
      = false ∧
    dict_get
      (report_leader vrfy_all hash_zero st_accuse "b" "c" "ev" "s" "p").2.accusations "c"
      = none ∧
    get_accusation_count (add_accusation st_accuse.accusations "c" "a") "c" =
      get_accusation_count st_accuse.accusations "c" := by
  obtain ⟨hiff, hclear, hdedup⟩ :=
    C6_expulsion_exact vrfy_all hash_zero st_accuse "b" "c" "ev" "s" "p" node_c
      (report_leader vrfy_all hash_zero st_accuse "b" "c" "ev" "s" "p").2
      (by decide) (by decide) (by decide)
  exact ⟨hiff.mpr (by decide), hclear (by decide),
    hdedup st_accuse.accusations "c" "a" (by decide)⟩

/-- The cumulative walk hits some index strictly below the weight-vector
length whenever the target is below the total weight. -/
theorem select_index_lt (ws : List Nat) (t n : Nat) (hlen : ws.length = n)
    (ht : t < ws.sum) : select_index ws t n < n := by
  obtain ⟨j, hj, hl⟩ := select_loop_some ws t 0 0 (Nat.zero_le t) (by omega)
  unfold select_index
  rw [hj]
  simp only [Option.getD_some]
  omega

/-- C10 (confirmed): the drawn target is strictly below the total weight, so
the cumulative-prefix walk always returns from inside the loop (the trailing
fallback is unreachable) at an index in `[0, number of active nodes)`; with an
empty active-node list the computation returns 0. -/
theorem C10_selection_in_range :
    (∀ (ws : List Nat) (t : Nat), t < ws.sum →
      ∃ j, select_loop ws t 0 0 = some j ∧ j < ws.length) ∧
    (∀ fuel st nid seed i, calculate_weighted_vote fuel st nid seed = some i →
      (get_nodes_ordered st.nodes = [] → i = 0) ∧
      (get_nodes_ordered st.nodes ≠ [] →
        i < (get_nodes_ordered st.nodes).length)) := by
  constructor
  · intro ws t ht
    obtain ⟨j, hj, hl⟩ := select_loop_some ws t 0 0 (Nat.zero_le t) (by omega)
    exact ⟨j, hj, by omega⟩
  · intro fuel st nid seed i hc
    cases hne : get_nodes_ordered st.nodes with
    | nil =>
      refine ⟨fun _ => ?_, fun hn => absurd rfl hn⟩
      simp only [calculate_weighted_vote, hne, List.isEmpty_nil, if_true] at hc
      exact (Option.some.inj hc).symm
    | cons n0 rest =>
      refine ⟨fun hn => absurd hn (List.cons_ne_nil _ _), fun _ => ?_⟩
      by_cases hz :
        ((n0 :: rest).map (fun n => (get_tokens st.frozen_tokens n.nodeId).toNat)).sum = 0
      · simp only [calculate_weighted_vote, hne, List.isEmpty_cons, if_false,
          Bool.false_eq_true, hz, if_true] at hc
        cases hr : randrange_fuel fuel seed (n0 :: rest).length with
        | none => rw [hr] at hc; exact absurd hc (by simp)
        | some target =>
          rw [hr] at hc
          have hti := randrange_fuel_lt fuel seed _ target hr
          have hii : i = select_index (List.replicate (n0 :: rest).length 1) target
              (n0 :: rest).length := (Option.some.inj hc).symm
          rw [hii]
          apply select_index_lt
          · exact List.length_replicate _ _
          · rw [sum_replicate_one]; exact hti
      · simp only [calculate_weighted_vote, hne, List.isEmpty_cons, if_false,
          Bool.false_eq_true, hz, if_true] at hc
        cases hr : randrange_fuel fuel seed
            ((n0 :: rest).map (fun n => (get_tokens st.frozen_tokens n.nodeId).toNat)).sum with
        | none => rw [hr] at hc; exact absurd hc (by simp)
        | some target =>
          rw [hr] at hc
          have hti := randrange_fuel_lt fuel seed _ target hr
          have hii : i = select_index
              ((n0 :: rest).map (fun n => (get_tokens st.frozen_tokens n.nodeId).toNat))
              target (n0 :: rest).length := (Option.some.inj hc).symm
          rw [hii]
          apply select_index_lt
          · exact List.length_map _ _
          · exact hti

set_option maxRecDepth 1000000 in
theorem C10_witness :
    (select_loop [2, 3] 4 0 0).isSome = true ∧
    0 < (get_nodes_ordered st_zero_stake.nodes).length ∧
    (0 : Nat) = 0 := by
  refine ⟨?_, ?_, ?_⟩
  · obtain ⟨j, hj, -⟩ := C10_selection_in_range.1 [2, 3] 4 (by decide)
    rw [hj]; rfl
  · exact (C10_selection_in_range.2 1000 st_zero_stake "a" 171 0
      (by decide)).2 (by decide)
  · exact (C10_selection_in_range.2 10 st_inactive "a" 5 0 (by decide)).1 (by decide)

/-- C1 counterexample: in `st_tally`, node `b` accumulates stake weight 100
from the votes while node `c` accumulates only 2, yet the implemented tally
declares `c` the winner — the code counts one unit per vote instead of
attributing the voter's stake weight as the spec's §4.5 prescribes. -/
theorem C1_counterexample :
    (tally_votes st_tally).1 = some "c" ∧
    spec_vote_weight st_tally "b" = 100 ∧
    spec_vote_weight st_tally "c" = 2 ∧
    ¬ spec_vote_weight st_tally "c" ≥ spec_vote_weight st_tally "b" := by
  decide

/-- C1 (corrected): with zero votes the tally returns `(none, 0.0, false)`;
otherwise each vote whose `selectedIndex` is within the ordered active-node
list contributes exactly one unit (not its stake weight) to that node's
count, votes with out-of-range indices are dropped (no modular reduction),
the winner is a candidate with maximal unit count, `agreementFraction` is
`winnerCount / totalVotesRecorded`, and `thresholdReached` holds iff the
winner's count is at least `ceil(2 * totalVotes / 3)`, i.e. iff
`agreementFraction ≥ 2/3`. -/
theorem C1_amended (st : ConsensusState) :
    (dict_values st.votes = [] → tally_votes st = (none, 0, false)) ∧
    (∀ w a th, tally_votes st = (some w, a, th) →
      ∃ cw, (w, cw) ∈ vote_counts (dict_values st.votes) (get_nodes_ordered st.nodes) ∧
        (∀ p ∈ vote_counts (dict_values st.votes) (get_nodes_ordered st.nodes),
          p.2 ≤ cw) ∧
        a = (cw : ℚ) / ((dict_values st.votes).length : ℚ) ∧
        (th = true ↔ 3 * cw ≥ 2 * (dict_values st.votes).length)) := by
  constructor
  · intro hv
    simp [tally_votes, hv]
  · intro w a th ht
    simp only [tally_votes] at ht
    by_cases hv : (dict_values st.votes).isEmpty
    · rw [if_pos hv] at ht
      exact absurd ht (by simp)
    · rw [if_neg hv] at ht
      by_cases hn : (get_nodes_ordered st.nodes).isEmpty
      · rw [if_pos hn] at ht
        exact absurd ht (by simp)
      · rw [if_neg hn] at ht
        cases hm : max_by_count
            (vote_counts (dict_values st.votes) (get_nodes_ordered st.nodes)) with
        | none => rw [hm] at ht; exact absurd ht (by simp)
        | some x =>
          obtain ⟨w0, c0⟩ := x
          rw [hm] at ht
          have hvne : dict_values st.votes ≠ [] := by simpa using hv
          have hlen : (dict_values st.votes).length > 0 := List.length_pos.mpr hvne
          simp only [hlen, if_true, Prod.mk.injEq, Option.some.injEq] at ht
          obtain ⟨hw, ha, hth⟩ := ht
          subst hw
          obtain ⟨hmem, hmax⟩ := max_by_count_spec _ _ hm
          refine ⟨c0, hmem, hmax, ha.symm, ?_⟩
          have hiff : (c0 ≥ ceil_two_thirds (dict_values st.votes).length) ↔
              3 * c0 ≥ 2 * (dict_values st.votes).length := by
            unfold ceil_two_thirds; omega
          rw [← hth]
          simp [decide_eq_true_iff, hiff]

theorem C1_witness :
    (tally_votes st_tally).1 = some "c" ∧
    (tally_votes st_tally).2.1 = (2 : ℚ) / 3 ∧
    (tally_votes st_tally).2.2 = true := by
  have hfull : tally_votes st_tally = (some "c", (tally_votes st_tally).2.1, true) := by
    have h1 : (tally_votes st_tally).1 = some "c" := by decide
    have h3 : (tally_votes st_tally).2.2 = true := by decide
    calc tally_votes st_tally
        = ((tally_votes st_tally).1, (tally_votes st_tally).2.1,
            (tally_votes st_tally).2.2) := rfl
      _ = (some "c", (tally_votes st_tally).2.1, true) := by rw [h1, h3]
  obtain ⟨cw, hmem, -, ha, -⟩ :=
    (C1_amended st_tally).2 "c" ((tally_votes st_tally).2.1) true hfull
  have hcounts : vote_counts (dict_values st_tally.votes)
      (get_nodes_ordered st_tally.nodes) = [("b", 1), ("c", 2)] := by decide
  rw [hcounts] at hmem
  have hcw : cw = 2 := by
    simp at hmem
    exact hmem
  rw [hcw] at ha
  have hlen : ((dict_values st_tally.votes).length : ℚ) = 3 := by
    norm_num [st_tally, dict_values]
  rw [hlen] at ha
  refine ⟨by decide, ?_, by decide⟩
  rw [ha]
  norm_num

end MiniBC
